import Mathlib

/-!
Verification of the earthquakes repository (ingestion, deduplicated SQLite
persistence, ranked top-K query, haversine proximity search).

The store (`src/eq_package/db.py`) is a SQLite table
`earthquakes_db(day TEXT, time TEXT, mag REAL, latitude REAL, longitude REAL,
place TEXT, UNIQUE(day, time, mag, latitude, longitude, place))`.
Rows are modelled with exact rationals for the REAL columns (the store logic
performs no float arithmetic, only comparisons) and `Option` for the nullable
magnitude.  SQLite's documented UNIQUE-constraint semantics apply: two NULLs
are considered distinct, so a row whose `mag` is NULL never conflicts with any
row.  `INSERT OR IGNORE` inserts a row exactly when no existing row conflicts
with it, appending at the end of the table (rowid order).
-/

/-- A row of the `earthquakes_db` table, in column order
`(day, time, mag, latitude, longitude, place)`.  `mag` is the only column the
ingestion pipeline can actually set to NULL (`properties['mag']` may be null),
hence the only one modelled as nullable. -/
structure Row where
  day : String
  time : String
  mag : Option ℚ
  latitude : ℚ
  longitude : ℚ
  place : String
deriving DecidableEq

/-- SQLite equality test used by the UNIQUE constraint on the nullable `mag`
column: NULL is distinct from everything, including another NULL. -/
def sqlEqMag : Option ℚ → Option ℚ → Bool
  | some a, some b => decide (a = b)
  | _, _ => false

/-- A candidate row `r` violates the six-column UNIQUE constraint against an
existing row `s` iff all six columns compare equal under SQLite semantics
(NULL `mag` never compares equal). -/
def uniqueConflict (r s : Row) : Bool :=
  decide (r.day = s.day) && decide (r.time = s.time) && sqlEqMag r.mag s.mag &&
    decide (r.latitude = s.latitude) && decide (r.longitude = s.longitude) &&
    decide (r.place = s.place)

/-- Does any row already in the table conflict with candidate `r`? -/
def hasConflict (t : List Row) (r : Row) : Bool :=
  t.any fun s => uniqueConflict r s

/-- One `INSERT OR IGNORE` statement: skip silently on a UNIQUE-constraint
conflict, otherwise append the row at the end of the table. -/
def insertOrIgnore (t : List Row) (r : Row) : List Row :=
  if hasConflict t r then t else t ++ [r]

/-- `cursor.executemany(insert_sql, earthquakes)` from
`src/eq_package/db.py` lines 80-88: `INSERT OR IGNORE` executed once per
record of the batch, in batch order.  (The spec's name for this store
operation is `upsert_all`.) -/
def upsert_all (t : List Row) (batch : List Row) : List Row :=
  batch.foldl insertOrIgnore t

/-- Embedding of `create_earthquake_db` (`src/eq_package/db.py` lines 34-92).
The network fetch is modelled by passing the gathered batch explicitly; the
table state is passed explicitly.  The result is the new table state paired
with the Python return value: the function is annotated `-> None` and its
docstring says `Returns: None`, so the returned value is `none`, never an
inserted-row count. -/
def create_earthquake_db (earthquakes : List Row) (t : List Row) :
    List Row × Option ℕ :=
  (upsert_all t earthquakes, none)

/-- Number of rows a batch newly adds to a table (the row-count delta of
`upsert_all`); this quantity is not returned by `create_earthquake_db`. -/
def insertedCount (t : List Row) (batch : List Row) : ℕ :=
  (upsert_all t batch).length - t.length

/-- SQLite ordering on the nullable `mag` column: NULL sorts below every
number (so in `ORDER BY mag DESC` NULLs come last). -/
def magLe : Option ℚ → Option ℚ → Prop
  | none, _ => True
  | some _, none => False
  | some a, some b => a ≤ b

instance magLe.instDecidable : ∀ a b, Decidable (magLe a b)
  | none, _ => isTrue trivial
  | some _, none => isFalse fun h => h
  | some a, some b => inferInstanceAs (Decidable (a ≤ b))

theorem magLe_total : ∀ a b, magLe a b ∨ magLe b a
  | none, _ => Or.inl trivial
  | some _, none => Or.inr trivial
  | some a, some b => le_total a b

theorem magLe_trans : ∀ {a b c}, magLe a b → magLe b c → magLe a c
  | none, _, _, _, _ => trivial
  | some _, none, _, h, _ => absurd h not_false
  | some _, some _, none, _, h => absurd h not_false
  | some _, some _, some _, h₁, h₂ => le_trans h₁ h₂

/-- `ORDER BY mag DESC`: row `r` may precede row `s` iff `s.mag ≤ r.mag`
(NULLs last). -/
def magDescRel (r s : Row) : Prop := magLe s.mag r.mag

instance magDescRel.instDecidableRel : DecidableRel magDescRel := fun r s =>
  inferInstanceAs (Decidable (magLe s.mag r.mag))

instance magDescRel.instIsTotal : IsTotal Row magDescRel :=
  ⟨fun r s => magLe_total s.mag r.mag⟩

instance magDescRel.instIsTrans : IsTrans Row magDescRel :=
  ⟨fun _ _ _ h₁ h₂ => magLe_trans h₂ h₁⟩

/-- SQLite's default BINARY collation on TEXT values: lexicographic order of
the UTF-8 byte encodings, which coincides with lexicographic order on code
points. -/
def charListLe : List Char → List Char → Bool
  | [], _ => true
  | _ :: _, [] => false
  | a :: as, b :: bs => if a = b then charListLe as bs else decide (a < b)

/-- The SQL comparison `day >= ?` reads `sqliteTextLe minDate day`. -/
def sqliteTextLe (a b : String) : Bool := charListLe a.data b.data

/-- The SQL predicate `mag >= ?`: a NULL magnitude makes the comparison NULL,
which is not true, so the row is filtered out for every threshold. -/
def magGE (minMagnitude : ℚ) (r : Row) : Bool :=
  match r.mag with
  | some m => decide (minMagnitude ≤ m)
  | none => false

/-- Embedding of `query_db` (`src/eq_package/db.py` lines 110-157):
`SELECT ... WHERE mag >= ? AND day >= ? ORDER BY mag DESC LIMIT ?`.
`minDate` stands for the clock-derived cutoff string
`(datetime.now() - timedelta(days=days)).strftime("%Y-%m-%d")`; `day >= ?`
is SQLite TEXT (byte-wise, i.e. lexicographic) comparison.  `ORDER BY` is
modelled by a stable insertion sort under `magDescRel` (SQLite fixes no tie
order; none of the proved properties depends on the tie order).  SQLite's
`LIMIT k` truncates to the first `k` rows when `k >= 0` and is disabled
(returns everything) when `k` is negative.  No parameter validation of any
kind is performed. -/
def query_db (k : ℤ) (minDate : String) (minMagnitude : ℚ) (t : List Row) :
    List Row :=
  let selected := t.filter fun r => magGE minMagnitude r && sqliteTextLe minDate r.day
  let sorted := List.insertionSort magDescRel selected
  if k < 0 then sorted else sorted.take k.toNat

/-!
Event normalization (`src/eq_package/ingv_client.py`, `gather_earthquakes`,
lines 91-117: the body of the per-event loop).  A raw geojson event carries a
`properties` dict and a `geometry.coordinates` array.  Python dict access
`properties['key']` raises `KeyError` when the key is absent; that presence
is modelled with an outer `Option` on each accessed field.  The value of
`properties['mag']` may itself be JSON null (Python `None`), modelled by the
inner `Option`.  Failures of the loop body (KeyError / IndexError /
ValueError from `datetime.fromisoformat`) are modelled with `Except`.
-/

/-- A raw INGV geojson event, restricted to the fields the loop body reads.
`time?`, `mag?`, `place?` are `none` when the corresponding key is absent
from `properties` (Python would raise `KeyError`); `mag? = some none` models
`"mag": null`.  `coordinates` is `geometry['coordinates']`, a JSON array of
numbers. -/
structure RawEvent where
  time? : Option String
  mag? : Option (Option ℚ)
  place? : Option String
  coordinates : List ℚ

/-- ASCII decimal digit test. -/
def isDigit (c : Char) : Bool := decide ('0' ≤ c) && decide (c ≤ '9')

/-- Shape check for the ISO-8601 timestamps the INGV feed supplies
(`YYYY-MM-DDTHH:MM:SS`, optionally followed by fractional seconds or an
offset), as accepted by `datetime.fromisoformat`.  Calendar-range validation
(month 1-12 etc.) performed by `fromisoformat` is not modelled; no claim
depends on it. -/
def isoShape : List Char → Bool
  | y1 :: y2 :: y3 :: y4 :: '-' :: m1 :: m2 :: '-' :: d1 :: d2 :: sep :: h1 ::
      h2 :: ':' :: n1 :: n2 :: ':' :: s1 :: s2 :: _ =>
    isDigit y1 && isDigit y2 && isDigit y3 && isDigit y4 && isDigit m1 &&
      isDigit m2 && isDigit d1 && isDigit d2 &&
      (decide (sep = 'T') || decide (sep = ' ')) && isDigit h1 && isDigit h2 &&
      isDigit n1 && isDigit n2 && isDigit s1 && isDigit s2
  | _ => false

/-- `datetime.fromisoformat(ts)` followed by `strftime('%Y-%m-%d')` and
`strftime('%H:%M:%S')`: on a well-formed ISO timestamp, the date part is the
first 10 characters and the time-of-day part is characters 11-18; an invalid
string raises `ValueError`, modelled by `none`. -/
def parseIsoDayTime (s : String) : Option (String × String) :=
  if isoShape s.data then some (s.take 10, (s.drop 11).take 8) else none

/-- The body of the `for event in events` loop of `gather_earthquakes`
(`src/eq_package/ingv_client.py` lines 91-117), producing one canonical
record: parse `properties['time']`, read `properties['mag']` unchanged (a
null stays null, no defaulting), take latitude from `coordinates[1]` and
longitude from `coordinates[0]`, read `properties['place']`.  Each failing
access raises, modelled as `Except.error`. -/
def normalize_event (ev : RawEvent) : Except String Row :=
  match ev.time? with
  | none => .error "KeyError: time"
  | some ts =>
    match parseIsoDayTime ts with
    | none => .error "ValueError: Invalid isoformat string"
    | some dt =>
      match ev.mag? with
      | none => .error "KeyError: mag"
      | some mag =>
        match ev.coordinates.get? 1 with
        | none => .error "IndexError: list index out of range"
        | some latitude =>
          match ev.coordinates.get? 0 with
          | none => .error "IndexError: list index out of range"
          | some longitude =>
            match ev.place? with
            | none => .error "KeyError: place"
            | some place => .ok ⟨dt.1, dt.2, mag, latitude, longitude, place⟩

/-!
Proximity search (`src/eq_package/municipalities.py`).  Python float
arithmetic and `math.sin`/`cos`/`sqrt`/`atan2` are modelled over the exact
reals; the claims about this component (distance of a point to itself,
symmetry, sort order/stability/length of the nearest-`n` selection) are
properties of the formula and of the stable sort, not of rounding.
-/

/-- `math.radians`: degrees to radians. -/
noncomputable def radians (x : ℝ) : ℝ := x * (Real.pi / 180)

/-- `math.atan2 y x`: the argument of the complex number `x + iy`. -/
noncomputable def atan2 (y x : ℝ) : ℝ := Complex.arg ⟨x, y⟩

/-- Embedding of `calculate_distance`
(`src/eq_package/municipalities.py` lines 30-70): haversine great-circle
distance with Earth radius 6371.0 km. -/
noncomputable def calculate_distance (lat1 lon1 lat2 lon2 : ℝ) : ℝ :=
  let R : ℝ := 6371.0
  let lat1_rad := radians lat1
  let lon1_rad := radians lon1
  let lat2_rad := radians lat2
  let lon2_rad := radians lon2
  let dlat := lat2_rad - lat1_rad
  let dlon := lon2_rad - lon1_rad
  let a := Real.sin (dlat / 2) ^ 2 +
    Real.cos lat1_rad * Real.cos lat2_rad * Real.sin (dlon / 2) ^ 2
  let c := 2 * atan2 (Real.sqrt a) (Real.sqrt (1 - a))
  R * c

/-- One CSV row of `italian_municipalities.csv`: name, latitude, longitude. -/
structure Settlement where
  name : String
  latitude : ℝ
  longitude : ℝ

/-- Sort key order used by `municipalities.sort(key=lambda x: x[1])`:
compare `(name, distance)` pairs by distance. -/
def distLe (a b : String × ℝ) : Prop := a.2 ≤ b.2

noncomputable instance distLe.instDecidableRel : DecidableRel distLe := fun a b =>
  inferInstanceAs (Decidable (a.2 ≤ b.2))

instance distLe.instIsTotal : IsTotal (String × ℝ) distLe :=
  ⟨fun a b => le_total a.2 b.2⟩

instance distLe.instIsTrans : IsTrans (String × ℝ) distLe :=
  ⟨fun _ _ _ h₁ h₂ => le_trans h₁ h₂⟩

/-- Embedding of `get_closest_municipalities`
(`src/eq_package/municipalities.py` lines 73-113): the CSV load is modelled
by passing the dataset explicitly, in file order.  Each settlement is mapped
to `(name, distance from the query point)`, the list is sorted by distance
with Python's stable `list.sort` (modelled by the stable `insertionSort`;
stability makes the sorted list unique, so any stable sort yields the same
list), and the first `n` entries are returned. -/
noncomputable def get_closest_municipalities (eq_lat eq_lon : ℝ) (n : ℕ)
    (dataset : List Settlement) : List (String × ℝ) :=
  let municipalities := dataset.map fun row =>
    (row.name, calculate_distance eq_lat eq_lon row.latitude row.longitude)
  (List.insertionSort distLe municipalities).take n

/-!
Helper lemmas about the store operations.
-/

theorem insertOrIgnore_exists_append (t : List Row) (r : Row) :
    ∃ e, insertOrIgnore t r = t ++ e := by
  unfold insertOrIgnore
  split
  · exact ⟨[], (List.append_nil t).symm⟩
  · exact ⟨[r], rfl⟩

theorem upsert_all_exists_append : ∀ (X t : List Row), ∃ e, upsert_all t X = t ++ e
  | [], t => ⟨[], (List.append_nil t).symm⟩
  | r :: X, t => by
    obtain ⟨e₀, h₀⟩ := insertOrIgnore_exists_append t r
    obtain ⟨e₁, h₁⟩ := upsert_all_exists_append X (insertOrIgnore t r)
    refine ⟨e₀ ++ e₁, ?_⟩
    show upsert_all (insertOrIgnore t r) X = t ++ (e₀ ++ e₁)
    rw [h₁, h₀, List.append_assoc]

theorem hasConflict_of_mem {t : List Row} {r s : Row} (hs : s ∈ t)
    (hc : uniqueConflict r s = true) : hasConflict t r = true := by
  unfold hasConflict
  exact List.any_eq_true.mpr ⟨s, hs, hc⟩

theorem hasConflict_append_left {t : List Row} {r : Row} (e : List Row)
    (h : hasConflict t r = true) : hasConflict (t ++ e) r = true := by
  unfold hasConflict at h ⊢
  rw [List.any_append, h, Bool.true_or]

theorem insertOrIgnore_of_conflict {t : List Row} {r : Row}
    (h : hasConflict t r = true) : insertOrIgnore t r = t := by
  unfold insertOrIgnore
  rw [if_pos h]

theorem uniqueConflict_self {r : Row} (h : r.mag ≠ none) :
    uniqueConflict r r = true := by
  obtain ⟨q, hq⟩ := Option.ne_none_iff_exists'.mp h
  simp [uniqueConflict, sqlEqMag, hq]

theorem hasConflict_insertOrIgnore_self {r : Row} (t : List Row)
    (h : r.mag ≠ none) : hasConflict (insertOrIgnore t r) r = true := by
  unfold insertOrIgnore
  split
  · assumption
  · exact hasConflict_of_mem (List.mem_append_right t (List.mem_singleton_self r))
      (uniqueConflict_self h)

theorem upsert_all_hasConflict : ∀ (X t : List Row), (∀ r ∈ X, r.mag ≠ none) →
    ∀ r ∈ X, hasConflict (upsert_all t X) r = true
  | [], _, _, r, hr => absurd hr (List.not_mem_nil r)
  | x :: X, t, hX, r, hr => by
    have hstep : upsert_all t (x :: X) = upsert_all (insertOrIgnore t x) X := rfl
    rcases List.mem_cons.mp hr with rfl | hr'
    · obtain ⟨e, he⟩ := upsert_all_exists_append X (insertOrIgnore t r)
      rw [hstep, he]
      exact hasConflict_append_left e
        (hasConflict_insertOrIgnore_self t (hX r (List.mem_cons_self r X)))
    · rw [hstep]
      exact upsert_all_hasConflict X (insertOrIgnore t x)
        (fun s hs => hX s (List.mem_cons_of_mem x hs)) r hr'

theorem upsert_all_of_all_conflict : ∀ (X t : List Row),
    (∀ r ∈ X, hasConflict t r = true) → upsert_all t X = t
  | [], _, _ => rfl
  | x :: X, t, h => by
    have hstep : upsert_all t (x :: X) = upsert_all (insertOrIgnore t x) X := rfl
    rw [hstep, insertOrIgnore_of_conflict (h x (List.mem_cons_self x X))]
    exact upsert_all_of_all_conflict X t fun s hs => h s (List.mem_cons_of_mem x hs)

theorem length_insertOrIgnore_le (t : List Row) (r : Row) :
    (insertOrIgnore t r).length ≤ t.length + 1 := by
  unfold insertOrIgnore
  split
  · exact Nat.le_succ t.length
  · simp

theorem length_upsert_all_le : ∀ (X t : List Row),
    (upsert_all t X).length ≤ t.length + X.length
  | [], _ => Nat.le_refl _
  | x :: X, t => by
    have hstep : upsert_all t (x :: X) = upsert_all (insertOrIgnore t x) X := rfl
    rw [hstep]
    calc (upsert_all (insertOrIgnore t x) X).length
        ≤ (insertOrIgnore t x).length + X.length := length_upsert_all_le X _
      _ ≤ t.length + 1 + X.length :=
        Nat.add_le_add_right (length_insertOrIgnore_le t x) _
      _ = t.length + (x :: X).length := by simp [Nat.add_assoc, Nat.add_comm 1]

theorem mem_selected_of_mem_query_db {k : ℤ} {minDate : String} {m : ℚ}
    {t : List Row} {r : Row} (h : r ∈ query_db k minDate m t) :
    r ∈ t ∧ magGE m r = true ∧ sqliteTextLe minDate r.day = true := by
  simp only [query_db] at h
  have hs : r ∈ List.insertionSort magDescRel
      (t.filter fun r => magGE m r && sqliteTextLe minDate r.day) := by
    split at h
    · exact h
    · exact List.mem_of_mem_take h
  have hf := (List.perm_insertionSort magDescRel _).subset hs
  rw [List.mem_filter] at hf
  obtain ⟨hmem, hcond⟩ := hf
  rw [Bool.and_eq_true] at hcond
  exact ⟨hmem, hcond.1, hcond.2⟩

theorem query_db_sorted (k : ℤ) (minDate : String) (m : ℚ) (t : List Row) :
    List.Sorted magDescRel (query_db k minDate m t) := by
  simp only [query_db]
  split
  · exact List.sorted_insertionSort magDescRel _
  · exact List.Pairwise.sublist (List.take_sublist _ _)
      (List.sorted_insertionSort magDescRel _)

theorem magGE_eq_true {m : ℚ} {r : Row} (h : magGE m r = true) :
    ∃ q, r.mag = some q ∧ m ≤ q := by
  unfold magGE at h
  cases hm : r.mag with
  | none => rw [hm] at h; exact absurd h (by simp)
  | some q => rw [hm] at h; exact ⟨q, rfl, of_decide_eq_true h⟩

/-- A concrete stored row with a non-null magnitude, used in witnesses. -/
def rowA : Row := ⟨"2024-03-04", "05:06:07", some 5, 45, 11, "Roma"⟩

/-- A concrete row with a NULL magnitude, used in witnesses and failing
inputs. -/
def rowNull : Row := ⟨"2024-05-01", "12:30:05", none, 45, 11, "Roma"⟩

/-- Claim C1 (the code violates it and thereby its own documentation, which
promises "duplicates prevention using a UNIQUE constraint and INSERT OR
IGNORE" / "duplicates are ignored"): upserting the same batch twice is NOT
idempotent when a record of the batch has a null magnitude.  SQLite's UNIQUE
constraint treats NULLs as pairwise distinct, so a stored null-magnitude row
never conflicts with its own re-insertion.  Evaluated at the failing input: a
single null-magnitude record, upserted twice starting from the empty store,
is stored twice, while a single call stores it once. -/
theorem upsert_all_not_idempotent_on_null_mag :
    upsert_all (upsert_all [] [rowNull]) [rowNull] = [rowNull, rowNull] ∧
    upsert_all ([] : List Row) [rowNull] = [rowNull] :=
  ⟨rfl, rfl⟩

/-- Claim C2: for every store state, positive `k`, magnitude threshold `m`
and date cutoff (the string `(today - days).strftime("%Y-%m-%d")` the code
computes), `query_db` returns a sequence that is sorted by non-increasing
magnitude, whose rows all have a (non-null) magnitude at least `m`, whose
length is at most `k`, and whose `day` fields are all at least the cutoff
date under SQLite TEXT comparison. -/
theorem query_db_top_k_spec (k : ℤ) (minDate : String) (m : ℚ) (t : List Row)
    (hk : 0 < k) :
    List.Sorted magDescRel (query_db k minDate m t) ∧
    (∀ r ∈ query_db k minDate m t, ∃ q, r.mag = some q ∧ m ≤ q) ∧
    ((query_db k minDate m t).length : ℤ) ≤ k ∧
    (∀ r ∈ query_db k minDate m t, sqliteTextLe minDate r.day = true) := by
  refine ⟨query_db_sorted k minDate m t, ?_, ?_, ?_⟩
  · intro r hr
    exact magGE_eq_true (mem_selected_of_mem_query_db hr).2.1
  · have hnneg : ¬ k < 0 := not_lt.mpr hk.le
    have h1 : (query_db k minDate m t).length ≤ k.toNat := by
      simp only [query_db, if_neg hnneg]
      exact List.length_take_le _ _
    have h2 : ((query_db k minDate m t).length : ℤ) ≤ (k.toNat : ℤ) :=
      Int.ofNat_le.mpr h1
    rwa [Int.toNat_of_nonneg hk.le] at h2
  · intro r hr
    exact (mem_selected_of_mem_query_db hr).2.2

/-- Witness for C2: the specification instantiated at a one-row store with
`k = 2`. -/
theorem query_db_top_k_spec_witness :
    (0 : ℤ) < 2 ∧
      (List.Sorted magDescRel (query_db 2 "2024-01-01" 0 [rowA]) ∧
        (∀ r ∈ query_db 2 "2024-01-01" 0 [rowA], ∃ q, r.mag = some q ∧ 0 ≤ q) ∧
        ((query_db 2 "2024-01-01" 0 [rowA]).length : ℤ) ≤ 2 ∧
        (∀ r ∈ query_db 2 "2024-01-01" 0 [rowA],
          sqliteTextLe "2024-01-01" r.day = true)) :=
  ⟨by decide, query_db_top_k_spec 2 "2024-01-01" 0 [rowA] (by decide)⟩

/-- Claim C3 counterexample: `create_earthquake_db` returns `None` (second
component `none`), never the count of newly inserted rows; moreover, for a
batch consisting of one null-magnitude record identical in all six fields to
an already-stored row, the record is inserted again, so the number of newly
inserted rows (1) equals the batch length instead of being strictly below
it. -/
theorem create_earthquake_db_count_counterexample :
    create_earthquake_db [rowNull] [rowNull] = ([rowNull, rowNull], none) ∧
    insertedCount [rowNull] [rowNull] = 1 :=
  ⟨rfl, rfl⟩

/-- Claim C3 (amended): the function returns `None` rather than a count; the
number of newly inserted rows (the row-count delta of the call) is strictly
less than the batch length whenever at least one record of the batch
conflicts — under the SQLite UNIQUE semantics, which never match a NULL
magnitude — with an already-stored row. -/
theorem create_earthquake_db_inserted_lt (t X : List Row)
    (h : ∃ r ∈ X, ∃ s ∈ t, uniqueConflict r s = true) :
    (create_earthquake_db X t).2 = none ∧ insertedCount t X < X.length := by
  refine ⟨rfl, ?_⟩
  obtain ⟨r, hrX, s, hst, hconf⟩ := h
  obtain ⟨X₁, X₂, rfl⟩ := List.append_of_mem hrX
  obtain ⟨e₁, he₁⟩ := upsert_all_exists_append X₁ t
  have hc1 : hasConflict (upsert_all t X₁) r = true := by
    rw [he₁]
    exact hasConflict_append_left e₁ (hasConflict_of_mem hst hconf)
  have hfold : upsert_all t (X₁ ++ r :: X₂)
      = upsert_all (insertOrIgnore (upsert_all t X₁) r) X₂ := by
    unfold upsert_all
    rw [List.foldl_append]
    rfl
  rw [insertedCount, hfold, insertOrIgnore_of_conflict hc1]
  have hlen2 : (upsert_all (upsert_all t X₁) X₂).length
      ≤ (upsert_all t X₁).length + X₂.length := length_upsert_all_le X₂ _
  have hlen1 : (upsert_all t X₁).length ≤ t.length + X₁.length :=
    length_upsert_all_le X₁ t
  have hXlen : (X₁ ++ r :: X₂).length = X₁.length + X₂.length + 1 := by
    simp [Nat.add_comm, Nat.add_assoc, Nat.add_left_comm]
  omega

/-- Witness for amended C3: a stored non-null row re-sent as the whole batch
is skipped, so the delta (0) is strictly below the batch length (1), and the
function's Python return value is `None`. -/
theorem create_earthquake_db_inserted_lt_witness :
    (∃ r ∈ [rowA], ∃ s ∈ [rowA], uniqueConflict r s = true) ∧
      ((create_earthquake_db [rowA] [rowA]).2 = none ∧
        insertedCount [rowA] [rowA] < ([rowA] : List Row).length) :=
  ⟨⟨rowA, List.mem_singleton_self rowA, rowA, List.mem_singleton_self rowA, rfl⟩,
    create_earthquake_db_inserted_lt [rowA] [rowA]
      ⟨rowA, List.mem_singleton_self rowA, rowA, List.mem_singleton_self rowA, rfl⟩⟩

/-- Claim C4 counterexample: with the invalid parameter `k = -1` the query
does not fail — the code contains no `InvalidQuery` (or any) parameter
validation — it touches the store and returns one row, which is longer than
`max(k, 0) = 0`. -/
theorem query_db_invalid_k_counterexample :
    query_db (-1) "2024-01-01" 0 [rowA] = [rowA] ∧
    ¬ ((query_db (-1) "2024-01-01" 0 [rowA]).length ≤ (max (-1 : ℤ) 0).toNat) := by
  constructor
  · rfl
  · intro hlen
    rw [show query_db (-1) "2024-01-01" 0 [rowA] = [rowA] from rfl] at hlen
    simp at hlen

/-- Claim C4 (amended): the code validates nothing and never raises for
invalid parameters: every `k` (and every date cutoff, hence every `days`,
negative ones included) produces an ordinary result read from the store.
The result length is the full number of matching rows when `k < 0` (SQLite
disables `LIMIT` for a negative argument — so the result can exceed
`max(k, 0)`), and `min k (#matching)` when `k ≥ 0` (so `k = 0` yields the
empty list). -/
theorem query_db_no_validation (k : ℤ) (minDate : String) (m : ℚ) (t : List Row) :
    (query_db k minDate m t).length =
      if k < 0 then
        (t.filter fun r => magGE m r && sqliteTextLe minDate r.day).length
      else
        min k.toNat (t.filter fun r => magGE m r && sqliteTextLe minDate r.day).length := by
  simp only [query_db]
  split
  · exact List.length_insertionSort magDescRel _
  · rw [List.length_take, List.length_insertionSort]

/-- Claim C7: the store grows monotonically: a call to the batch insert
appends (possibly zero) rows at the end of the table; every row present
before the call is still present, unchanged and at its old position,
afterwards.  No delete or update is performed and duplicates are skipped
without overwriting. -/
theorem upsert_all_monotone (t X : List Row) :
    ∃ ext, upsert_all t X = t ++ ext :=
  upsert_all_exists_append X t

/-- Claim C10: for every store state and every magnitude threshold —
including zero and negative thresholds — `query_db` never returns a row
whose magnitude is NULL: the SQL comparison `mag >= ?` is never true on a
NULL magnitude. -/
theorem query_db_never_null_mag (k : ℤ) (minDate : String) (m : ℚ)
    (t : List Row) (r : Row) (hr : r ∈ query_db k minDate m t) :
    r.mag ≠ none := by
  obtain ⟨q, hq, -⟩ := magGE_eq_true (mem_selected_of_mem_query_db hr).2.1
  simp [hq]

/-- Witness for C10 at a store holding one null-magnitude row and one row
with magnitude 5, queried with the negative threshold `-3`. -/
theorem query_db_never_null_mag_witness :
    rowA ∈ query_db 1 "2024-01-01" (-3) [rowA, rowNull] ∧ rowA.mag ≠ none := by
  have hmem : rowA ∈ query_db 1 "2024-01-01" (-3) [rowA, rowNull] := by
    rw [show query_db 1 "2024-01-01" (-3) [rowA, rowNull] = [rowA] from rfl]
    exact List.mem_singleton_self rowA
  exact ⟨hmem, query_db_never_null_mag 1 "2024-01-01" (-3) [rowA, rowNull] rowA hmem⟩

/-- Claim C5: whenever normalization of a raw event whose geometry carries a
two-element coordinate pair `[c0, c1]` (source order
`[longitude, latitude]`) produces a record, the orders are swapped: the
record's latitude is the pair's second element and its longitude is the
pair's first element. -/
theorem normalize_event_swaps_coordinates (ev : RawEvent) (c0 c1 : ℚ) (rec : Row)
    (hc : ev.coordinates = [c0, c1])
    (h : normalize_event ev = Except.ok rec) :
    rec.latitude = c1 ∧ rec.longitude = c0 := by
  unfold normalize_event at h
  rw [hc] at h
  split at h
  · exact Except.noConfusion h
  split at h
  · exact Except.noConfusion h
  split at h
  · exact Except.noConfusion h
  split at h
  · exact Except.noConfusion h
  split at h
  · exact Except.noConfusion h
  split at h
  · exact Except.noConfusion h
  rename_i x1 x2 x3 x4 x5 x6 x7 x8 x9 x10
  injection h with h2
  subst h2
  refine ⟨?_, ?_⟩ <;> simp_all

/-- A concrete raw event (all keys present, magnitude 3, coordinates
`[longitude 11, latitude 45]`), used in witnesses. -/
def evA : RawEvent := ⟨some "2024-05-01T12:30:05", some (some 3), some "Roma", [11, 45]⟩

/-- The record that normalizing `evA` produces. -/
def recA : Row := ⟨"2024-05-01", "12:30:05", some 3, 45, 11, "Roma"⟩

/-- Witness for C5: normalizing the concrete event `evA`, whose coordinate
pair is `[11, 45]`, yields a record with latitude 45 and longitude 11. -/
theorem normalize_event_swaps_coordinates_witness :
    evA.coordinates = [11, 45] ∧ normalize_event evA = Except.ok recA ∧
      recA.latitude = 45 ∧ recA.longitude = 11 :=
  ⟨rfl, rfl, normalize_event_swaps_coordinates evA 11 45 recA rfl rfl⟩

/-- Claim C6 counterexample: a raw event with a valid timestamp and
coordinates whose properties dict has NO `mag` key does not normalize
silently to a null magnitude — the direct access `properties['mag']` raises
`KeyError` — whereas the claim demands that normalization succeed for an
absent magnitude. -/
theorem normalize_event_absent_mag_counterexample :
    normalize_event ⟨some "2024-05-01T12:30:05", none, some "Roma", [11, 45]⟩ =
      Except.error "KeyError: mag" :=
  rfl

/-- Claim C6 (amended): for every raw event with a valid timestamp, a
two-element coordinate pair and a place, whose `mag` key is PRESENT with a
null value, normalization succeeds (a null magnitude is not an error) and
the resulting record's magnitude is null — never defaulted to zero.  (When
the `mag` key is absent altogether the code instead raises `KeyError`, see
the counterexample.) -/
theorem normalize_event_null_magnitude (ev : RawEvent) (ts d tm pl : String)
    (c0 c1 : ℚ) (hts : ev.time? = some ts)
    (hparse : parseIsoDayTime ts = some (d, tm))
    (hmag : ev.mag? = some none) (hc : ev.coordinates = [c0, c1])
    (hpl : ev.place? = some pl) :
    normalize_event ev = Except.ok ⟨d, tm, none, c1, c0, pl⟩ := by
  obtain ⟨a, b, c, coords⟩ := ev
  dsimp only at hts hmag hc hpl
  subst hts hmag hc hpl
  unfold normalize_event
  dsimp only
  rw [hparse]
  rfl

/-- Witness for amended C6: a concrete event with `"mag": null` normalizes
successfully to a record whose magnitude is `none`. -/
theorem normalize_event_null_magnitude_witness :
    (⟨some "2024-05-01T12:30:05", some none, some "Roma", [11, 45]⟩ : RawEvent).mag?
        = some none ∧
      normalize_event ⟨some "2024-05-01T12:30:05", some none, some "Roma", [11, 45]⟩ =
        Except.ok ⟨"2024-05-01", "12:30:05", none, 45, 11, "Roma"⟩ :=
  ⟨rfl, normalize_event_null_magnitude
    ⟨some "2024-05-01T12:30:05", some none, some "Roma", [11, 45]⟩
    "2024-05-01T12:30:05" "2024-05-01" "12:30:05" "Roma" 11 45 rfl rfl rfl rfl rfl⟩

theorem pairwise_distLe_of_const (k : ℝ) : ∀ l : List (String × ℝ),
    (∀ x ∈ l, x.2 = k) → l.Pairwise distLe
  | [], _ => List.Pairwise.nil
  | x :: l, h => by
    refine List.Pairwise.cons ?_
      (pairwise_distLe_of_const k l fun y hy => h y (List.mem_cons_of_mem x hy))
    intro y hy
    show x.2 ≤ y.2
    rw [h x (List.mem_cons_self x l), h y (List.mem_cons_of_mem x hy)]

theorem insertionSort_filter_key (k : ℝ) (l : List (String × ℝ)) :
    (List.insertionSort distLe l).filter (fun x => decide (x.2 = k)) =
      l.filter (fun x => decide (x.2 = k)) := by
  have hpair : (l.filter fun x => decide (x.2 = k)).Pairwise distLe := by
    apply pairwise_distLe_of_const k
    intro x hx
    exact of_decide_eq_true (List.mem_filter.mp hx).2
  have hsub : List.Sublist (l.filter fun x => decide (x.2 = k))
      (List.insertionSort distLe l) :=
    List.sublist_insertionSort hpair (List.filter_sublist l)
  have h1 := hsub.filter fun x => decide (x.2 = k)
  rw [List.filter_eq_self.mpr fun a ha => (List.mem_filter.mp ha).2] at h1
  have hperm : ((List.insertionSort distLe l).filter fun x => decide (x.2 = k)).Perm
      (l.filter fun x => decide (x.2 = k)) :=
    (List.perm_insertionSort distLe l).filter _
  exact (h1.eq_of_length hperm.length_eq.symm).symm

/-- Claim C8: `get_closest_municipalities` maps every settlement of the
dataset (kept in file order) to its distance from the query point, stably
sorts by non-decreasing distance — ties keep the original dataset order:
filtering the sorted list at any fixed distance value returns exactly the
dataset-order sublist at that distance — and returns the first `n` entries.
The result is sorted by non-decreasing distance and its length is
`min n (dataset size)`; when `n` exceeds the dataset size every entry is
returned. -/
theorem get_closest_municipalities_spec (eq_lat eq_lon : ℝ) (n : ℕ)
    (dataset : List Settlement) :
    ∃ full : List (String × ℝ),
      full.Perm (dataset.map fun row =>
        (row.name, calculate_distance eq_lat eq_lon row.latitude row.longitude)) ∧
      List.Sorted distLe full ∧
      (∀ k : ℝ, full.filter (fun x => decide (x.2 = k)) =
        (dataset.map fun row =>
          (row.name,
            calculate_distance eq_lat eq_lon row.latitude row.longitude)).filter
          (fun x => decide (x.2 = k))) ∧
      get_closest_municipalities eq_lat eq_lon n dataset = full.take n ∧
      (get_closest_municipalities eq_lat eq_lon n dataset).length
        = min n dataset.length ∧
      List.Sorted distLe (get_closest_municipalities eq_lat eq_lon n dataset) := by
  refine ⟨List.insertionSort distLe (dataset.map fun row =>
      (row.name, calculate_distance eq_lat eq_lon row.latitude row.longitude)),
    List.perm_insertionSort _ _, List.sorted_insertionSort _ _,
    fun k => insertionSort_filter_key k _, ?_, ?_, ?_⟩
  · rfl
  · simp only [get_closest_municipalities]
    rw [List.length_take, List.length_insertionSort, List.length_map]
  · simp only [get_closest_municipalities]
    exact List.Pairwise.sublist (List.take_sublist _ _)
      (List.sorted_insertionSort _ _)

/-- Claim C9: the haversine distance from any point to itself is zero, and
the distance is symmetric in its two argument points. -/
theorem calculate_distance_self_and_symm :
    (∀ lat lon : ℝ, calculate_distance lat lon lat lon = 0) ∧
    (∀ lat1 lon1 lat2 lon2 : ℝ,
      calculate_distance lat1 lon1 lat2 lon2
        = calculate_distance lat2 lon2 lat1 lon1) := by
  constructor
  · intro lat lon
    simp only [calculate_distance, radians, atan2, sub_self, zero_div,
      Real.sin_zero, ne_eq, OfNat.ofNat_ne_zero, not_false_eq_true, zero_pow,
      mul_zero, add_zero, Real.sqrt_zero, sub_zero, Real.sqrt_one]
    have h1 : (⟨1, 0⟩ : ℂ) = 1 := by
      apply Complex.ext <;> simp
    rw [h1, Complex.arg_one, mul_zero, mul_zero]
  · intro lat1 lon1 lat2 lon2
    simp only [calculate_distance, radians, atan2]
    have hsin : ∀ x y : ℝ, Real.sin ((x - y) / 2) ^ 2 = Real.sin ((y - x) / 2) ^ 2 := by
      intro x y
      rw [show (x - y) / 2 = -((y - x) / 2) by ring, Real.sin_neg]
      ring
    rw [hsin (lat2 * (Real.pi / 180)) (lat1 * (Real.pi / 180)),
      hsin (lon2 * (Real.pi / 180)) (lon1 * (Real.pi / 180)),
      mul_comm (Real.cos (lat1 * (Real.pi / 180))) (Real.cos (lat2 * (Real.pi / 180)))]
